import Mathlib

/-!
Shallow embedding of the AxiomFrontier world-state kernel
(TypeScript sources under src/), used to check the specification claims.
JavaScript numbers are modelled as exact rationals, integer-valued
quantities as integers; Date.now() is threaded as an explicit clock
parameter; Math.random() results are explicit parameters.
-/

namespace Axiom

/-- JS Math.max(lo, Math.min(hi, v)) on integers (the clamp helper in the source). -/
def clampZ (v lo hi : ℤ) : ℤ := max lo (min hi v)

/-- JS Math.round: round half toward positive infinity. -/
def jsRound (q : ℚ) : ℤ := ⌊q + 1 / 2⌋

/-- JS Map.get (association list keyed by string, insertion order). -/
def lookupA {α : Type} (k : String) : List (String × α) → Option α
  | [] => none
  | (k2, v) :: rest => if k2 = k then some v else lookupA k rest

/-- Replace the first element with the same key, else append — this is the
behaviour of JS Map.set on an insertion-ordered map. -/
def upsertBy {α : Type} (key : α → String) (x : α) : List α → List α
  | [] => [x]
  | y :: ys => if key y = key x then x :: ys else y :: upsertBy key x ys

/-- JS Map.set for association lists. -/
def setA {α : Type} (k : String) (v : α) (l : List (String × α)) : List (String × α) :=
  upsertBy Prod.fst (k, v) l

/-- Sequentially Map.set every element of a list into an accumulator map. -/
def fromListBy {α : Type} (key : α → String) (l : List α) : List α :=
  l.foldl (fun acc x => upsertBy key x acc) []

/-- Zone tag of a room: the source string union "city" | "wild". -/
def zoneCity : String := "city"

/-- PvP block of a city policy (types.ts CityPolicy.pvp). -/
structure PvpPolicy where
  onFlag : Bool
  dropRule : String
  penalty : String
deriving Repr, DecidableEq

/-- Tax block of a city policy (types.ts CityPolicy.tax; unused rates omitted). -/
structure TaxPolicy where
  trade : ℚ
  withdraw : ℚ
deriving Repr, DecidableEq

/-- City policy (types.ts CityPolicy; fields not read by the embedded code omitted). -/
structure CityPolicy where
  safetyLevel : ℚ
  pvp : PvpPolicy
  tax : TaxPolicy
deriving Repr, DecidableEq

/-- A city (types.ts City). -/
structure City where
  id : String
  name : String
  policy : CityPolicy
deriving Repr, DecidableEq

/-- A room (types.ts Room). zone is the string "city" or "wild". -/
structure Room where
  id : String
  name : String
  neighbors : List String
  cityId : Option String
  zone : String
deriving Repr, DecidableEq

/-- An NPC (types.ts Npc; style omitted). -/
structure Npc where
  id : String
  name : String
  role : String
  location : Option String
deriving Repr, DecidableEq

/-- Player state (extended PlayerState used by the feature-complete variant:
location, inventory, credits, health, hunger, heat, status, job cooldowns,
discovered rooms, reputation). credits is a JS number (exact rational here);
health/hunger/heat are integer-valued; a player created without a heat field
is modelled with heat 0, matching the source's (player.heat ?? 0). -/
structure PState where
  id : String
  location : String
  inventory : List String
  credits : ℚ
  health : ℤ
  hunger : ℤ
  heat : ℤ
  status : String
  jobCooldowns : List (String × ℤ)
  discoveredRooms : List String
  reputation : List (String × ℤ)
deriving Repr, DecidableEq

/-! ## Job / heat subsystem (core/jobs.ts, embedded in npc-lifecycle.ts) -/

/-- JobDefinition from core/jobs.ts. -/
structure JobDefinition where
  id : String
  title : String
  type : String
  zone : Option String
  onlyInRooms : Option (List String)
  minHeat : Option ℤ
  maxHeat : Option ℤ
  cooldownSec : ℤ
  creditReward : ℚ
  healthDelta : Option ℤ
  hungerDelta : Option ℤ
  heatDelta : ℤ
deriving Repr, DecidableEq

/-- The fixed JOBS catalogue from core/jobs.ts. -/
def JOBS : List JobDefinition :=
  [ { id := "courier-market", title := "跑腿送货", type := "legal", zone := some "city",
      onlyInRooms := some ["market", "square"], minHeat := none, maxHeat := none,
      cooldownSec := 60, creditReward := 18, healthDelta := none, hungerDelta := some (-3),
      heatDelta := -2 },
    { id := "street-hustle", title := "街头小活", type := "legal", zone := some "city",
      onlyInRooms := some ["square"], minHeat := none, maxHeat := none,
      cooldownSec := 90, creditReward := 25, healthDelta := none, hungerDelta := some (-4),
      heatDelta := 0 },
    { id := "pickpocket", title := "扒窃", type := "illegal", zone := some "city",
      onlyInRooms := some ["market", "square"], minHeat := none, maxHeat := none,
      cooldownSec := 120, creditReward := 55, healthDelta := some (-5), hungerDelta := some (-2),
      heatDelta := 22 },
    { id := "gate-bribe-run", title := "走私通关", type := "illegal", zone := none,
      onlyInRooms := some ["north_gate"], minHeat := none, maxHeat := none,
      cooldownSec := 180, creditReward := 90, healthDelta := some (-8), hungerDelta := some (-3),
      heatDelta := 35 },
    { id := "scavenge-wild", title := "荒野拾荒", type := "combat", zone := some "wild",
      onlyInRooms := none, minHeat := none, maxHeat := none,
      cooldownSec := 120, creditReward := 70, healthDelta := some (-12), hungerDelta := some (-8),
      heatDelta := 5 } ]

/-- getHeat from core/jobs.ts: clamp(Number(player.heat ?? 0) || 0, 0, 100). -/
def getHeat (p : PState) : ℤ := clampZ p.heat 0 100

/-- computeWantedLevel from core/jobs.ts. -/
def computeWantedLevel (heat : ℤ) : ℕ :=
  let h := clampZ heat 0 100
  if h ≥ 85 then 5
  else if h ≥ 70 then 4
  else if h ≥ 55 then 3
  else if h ≥ 35 then 2
  else if h ≥ 15 then 1
  else 0

/-- canRunJob from core/jobs.ts; returns some reason on failure, none when ok.
now is the Date.now() timestamp in milliseconds. -/
def canRunJob (jd : JobDefinition) (player : PState) (room : Room) (now : ℤ) : Option String :=
  let lastRun := (lookupA jd.id player.jobCooldowns).getD 0
  let remainingMs := lastRun + jd.cooldownSec * 1000 - now
  if remainingMs > 0 then some "冷却中"
  else
    let heat := getHeat player
    if h1 : jd.minHeat.isSome then
      if heat < jd.minHeat.get h1 then some "热度不足" else
      canRunJobRest jd player room heat
    else canRunJobRest jd player room heat
where
  /-- The checks after the minHeat gate (maxHeat, zone, room, illegal-heat ceiling). -/
  canRunJobRest (jd : JobDefinition) (_player : PState) (room : Room) (heat : ℤ) :
      Option String :=
    if h2 : jd.maxHeat.isSome then
      if heat > jd.maxHeat.get h2 then some "热度过高" else
      canRunJobTail jd room heat
    else canRunJobTail jd room heat
  /-- The location and illegal-job checks. -/
  canRunJobTail (jd : JobDefinition) (room : Room) (heat : ℤ) : Option String :=
    if h3 : jd.zone.isSome then
      if room.zone ≠ jd.zone.get h3 then some "地点不对" else
      canRunJobLast jd room heat
    else canRunJobLast jd room heat
  /-- The onlyInRooms and illegal-heat checks. -/
  canRunJobLast (jd : JobDefinition) (room : Room) (heat : ℤ) : Option String :=
    if h4 : jd.onlyInRooms.isSome then
      if room.id ∉ jd.onlyInRooms.get h4 then some "地点不对" else
      canRunJobIllegal jd heat
    else canRunJobIllegal jd heat
  /-- Illegal jobs are disabled when heat is already very high (≥ 95). -/
  canRunJobIllegal (jd : JobDefinition) (heat : ℤ) : Option String :=
    if jd.type = "illegal" ∧ heat ≥ 95 then some "风头太紧" else none

/-- Result of runJob: the source either throws, returns a blocked result with
the player state untouched, or returns a success result with the mutated
player state and the recomputed wanted level. -/
inductive JobResult where
  | threw (msg : String)
  | blocked (reason : String) (state : PState)
  | ran (state : PState) (wanted : ℕ)
deriving Repr, DecidableEq

/-- runJob from core/jobs.ts. rooms is the world's room map (values). -/
def runJob (rooms : List Room) (player : PState) (jobId : String) (now : ℤ) : JobResult :=
  match rooms.find? (fun r => r.id = player.location) with
  | none => .threw "Invalid player location"
  | some room =>
    match JOBS.find? (fun j => j.id = jobId) with
    | none => .threw "Unknown job"
    | some jd =>
      match canRunJob jd player room now with
      | some reason => .blocked reason player
      | none =>
        let beforeHeat := getHeat player
        let afterHeat := clampZ (beforeHeat + jd.heatDelta) 0 100
        let state :=
          { player with
            heat := afterHeat,
            credits := max 0 (player.credits + jd.creditReward),
            health := clampZ (player.health + (jd.healthDelta.getD 0)) 0 100,
            hunger := clampZ (player.hunger + (jd.hungerDelta.getD 0)) 0 100,
            status := if clampZ (player.health + (jd.healthDelta.getD 0)) 0 100 = 0
                      then "down" else "ok",
            jobCooldowns := setA jd.id now player.jobCooldowns }
        .ran state (computeWantedLevel afterHeat)

/-- decayHeatForAllPlayers from core/jobs.ts, restricted to one player
(the source maps this update over every player in the world). -/
def decayHeatPlayer (amount : ℤ) (p : PState) : PState :=
  { p with heat := clampZ (getHeat p - amount) 0 100 }

/-! ## Death penalty (core/actions.ts calculateDeathPenalty) -/

/-- The record returned by calculateDeathPenalty. -/
structure DeathPenalty where
  creditLoss : ℤ
  itemLoss : List String
  respawnLocation : String
  reputationPenalty : List (String × ℤ)
  cooldownSec : ℤ
deriving Repr, DecidableEq

/-- calculateDeathPenalty from core/actions.ts. -/
def calculateDeathPenalty (player : PState) (cityPolicy : Option CityPolicy)
    (isPvP : Bool) : DeathPenalty :=
  let baseCreditLoss : ℚ := if isPvP then 2 / 10 else 1 / 10
  let creditLoss := ⌊player.credits * baseCreditLoss⌋
  let dropRule := (cityPolicy.map (fun c => c.pvp.dropRule)).getD "partial"
  let itemLoss :=
    if player.inventory.length > 0 then
      if dropRule = "full" ∧ isPvP then player.inventory
      else if dropRule = "partial" then
        player.inventory.take (⌊(player.inventory.length : ℚ) * (3 / 10)⌋).toNat
      else []
    else []
  let respawnLocation := if "square" ∈ player.discoveredRooms then "square" else "wild_north"
  let reputationPenalty :=
    if isPvP ∧ (cityPolicy.map (fun c => c.pvp.penalty)) = some "bounty"
    then [("city-guard", (-10 : ℤ))] else []
  { creditLoss := creditLoss, itemLoss := itemLoss, respawnLocation := respawnLocation,
    reputationPenalty := reputationPenalty, cooldownSec := if isPvP then 30 else 15 }

/-! ## Action handlers -/

/-- Result of the withdraw handler of core/actions.ts: state, summary, and the
meta tax amount; success marks the mutating branch. -/
structure WithdrawAResult where
  state : PState
  summary : String
  tax : ℤ
  success : Bool
deriving Repr, DecidableEq

/-- The withdraw handler registered in core/actions.ts. cityRate is
city?.policy.tax.withdraw (absent city modelled as none, defaulted with ?? 0.02). -/
def withdrawActions (cityRate : Option ℚ) (amount : ℚ) (p : PState) : WithdrawAResult :=
  if amount ≤ 0 ∨ amount > p.credits then
    { state := p, summary := "无效的提取金额。", tax := 0, success := false }
  else
    let taxRate := cityRate.getD (2 / 100)
    let tax := ⌊amount * taxRate⌋
    { state := { p with credits := p.credits - amount },
      summary := "提取完成", tax := tax, success := true }

/-- JS  x || 0.02  on the optional withdraw tax: 0 (and absence) falls back
to the default 0.02, any other value is kept. -/
def jsOrDefaultRate (r : Option ℚ) : ℚ :=
  match r with
  | some v => if v = 0 then 2 / 100 else v
  | none => 2 / 100

/-- Result of the part_003 withdraw handler: state, summary, the fee amount
the handler computes and displays (amount * fee), the total cost debited,
and whether the debit happened. -/
structure WithdrawBResult where
  state : PState
  summary : String
  feeAmt : ℚ
  totalCost : ℚ
  success : Bool
deriving Repr, DecidableEq

/-- The withdraw handler of the alternative actions module (part_003):
total cost amount * (1 + fee) is debited through applyCurrencyRules, which
refuses a debit exceeding the balance and clamps at 0. -/
def withdrawAlt (city : Option CityPolicy) (amount : ℚ) (p : PState) : WithdrawBResult :=
  if amount ≤ 0 then
    { state := p, summary := "取款金额必须为正数。", feeAmt := 0, totalCost := 0,
      success := false }
  else
    let fee := jsOrDefaultRate (city.map (fun c => c.tax.withdraw))
    let totalCost := amount * (1 + fee)
    if p.credits < totalCost then
      { state := p, summary := "信用点不足", feeAmt := amount * fee, totalCost := totalCost,
        success := false }
    else
      { state := { p with credits := max 0 (p.credits - totalCost) },
        summary := "取款完成", feeAmt := amount * fee, totalCost := totalCost,
        success := true }

/-- Result of the part_003 attack handler. -/
structure AttackBResult where
  state : PState
  summary : String
deriving Repr, DecidableEq

/-- The attack handler of the alternative actions module (part_003).
damage is the Math.floor(Math.random() * 20) + 10 roll, passed explicitly. -/
def attackAlt (city : Option CityPolicy) (npcs : List Npc) (room : Room)
    (target : Option String) (damage : ℤ) (p : PState) : AttackBResult :=
  let npc : Option Npc := match target with
    | none => none
    | some t => npcs.find? (fun n => n.id = t)
  match npc with
  | none => { state := p, summary := "目标不在场或不存在。" }
  | some n =>
    if n.location ≠ some room.id then
      { state := p, summary := "目标不在场或不存在。" }
    else
      match city with
      | some c =>
        if c.pvp.onFlag = false ∧ n.role = "guard" then
          { state := { p with health := max 0 (p.health - 30) },
            summary := "城市政策禁止 PvP，你受到 30 点伤害。" }
        else
          { state := { p with health := max 0 (p.health - damage) },
            summary := "你攻击了目标。" }
      | none =>
        { state := { p with health := max 0 (p.health - damage) },
          summary := "你攻击了目标。" }

/-! ## Economic simulator (core/economy.ts) -/

/-- MarketItem from core/economy.ts (name and category omitted). -/
structure MarketItem where
  id : String
  basePrice : ℚ
  currentPrice : ℚ
  supply : ℚ
  demand : ℚ
  volatility : ℚ
  restockRate : ℚ
  maxStock : ℚ
deriving Repr, DecidableEq

/-- TraderInventory from core/economy.ts (location and lastUpdate omitted). -/
structure TraderInventory where
  traderId : String
  items : List MarketItem
  buyMultiplier : ℚ
  sellMultiplier : ℚ
  restockCooldown : ℤ
deriving Repr, DecidableEq

/-- EconomicEvent from core/economy.ts (id/type omitted, duration folded into remaining). -/
structure EconomicEvent where
  affectedItems : List String
  multiplier : ℚ
  remaining : ℤ
deriving Repr, DecidableEq

/-- The mutable state of EconomySimulator: global items, trader inventories,
active events (price history is not needed by any claim). -/
structure EconSt where
  items : List MarketItem
  traders : List TraderInventory
  activeEvents : List EconomicEvent
deriving Repr, DecidableEq

/-- Update the item with the given id in an item list (JS mutation of a Map value). -/
def updItem (f : MarketItem → MarketItem) (itemId : String) (l : List MarketItem) :
    List MarketItem :=
  l.map (fun it => if it.id = itemId then f it else it)

/-- Update the trader with the given id in a trader list. -/
def updTrader (f : TraderInventory → TraderInventory) (traderId : String)
    (l : List TraderInventory) : List TraderInventory :=
  l.map (fun tr => if tr.traderId = traderId then f tr else tr)

/-- recordTransaction from core/economy.ts: nudges the global item's demand. -/
def recordTransaction (econ : EconSt) (itemId : String) (quantity : ℚ)
    (isBuy : Bool) : EconSt :=
  match econ.items.find? (fun it => it.id = itemId) with
  | none => econ
  | some _ =>
    if isBuy then
      let f := fun it => { it with demand := min 1 (it.demand + quantity * (5 / 1000)) }
      { econ with items := updItem f itemId econ.items }
    else
      let f := fun it => { it with demand := max 0 (it.demand - quantity * (2 / 1000)) }
      { econ with items := updItem f itemId econ.items }

/-- The result record of buyItem. -/
structure BuyRes where
  success : Bool
  cost : ℚ
  remainingSupply : ℚ
deriving Repr, DecidableEq

/-- buyItem from core/economy.ts; returns the new economy state, the new player
state, and the result record. -/
def buyItem (econ : EconSt) (itemId traderId : String) (quantity : ℚ) (p : PState) :
    EconSt × PState × BuyRes :=
  match econ.traders.find? (fun tr => tr.traderId = traderId) with
  | none => (econ, p, { success := false, cost := 0, remainingSupply := 0 })
  | some trader =>
    match trader.items.find? (fun it => it.id = itemId) with
    | none => (econ, p, { success := false, cost := 0, remainingSupply := 0 })
    | some item =>
      if item.supply < quantity then
        (econ, p, { success := false, cost := 0, remainingSupply := item.supply })
      else
        let cost := item.currentPrice * quantity
        if p.credits < cost then
          (econ, p, { success := false, cost := cost, remainingSupply := item.supply })
        else
          let newSupply := item.supply - quantity
          let fItem := fun it =>
            { it with supply := it.supply - quantity,
                      demand := min 1 (it.demand + quantity * (1 / 100)) }
          let fTrader := fun tr => { tr with items := updItem fItem itemId tr.items }
          let econ2 := { econ with traders := updTrader fTrader traderId econ.traders }
          let econ3 := recordTransaction econ2 itemId quantity true
          (econ3, { p with credits := p.credits - cost },
           { success := true, cost := cost, remainingSupply := newSupply })

/-- The result record of sellItem. -/
structure SellRes where
  success : Bool
  revenue : ℚ
  newSupply : ℚ
deriving Repr, DecidableEq

/-- sellItem from core/economy.ts. -/
def sellItem (econ : EconSt) (itemId traderId : String) (quantity : ℚ) (p : PState) :
    EconSt × PState × SellRes :=
  match econ.traders.find? (fun tr => tr.traderId = traderId) with
  | none => (econ, p, { success := false, revenue := 0, newSupply := 0 })
  | some trader =>
    match trader.items.find? (fun it => it.id = itemId) with
    | none => (econ, p, { success := false, revenue := 0, newSupply := 0 })
    | some item =>
      let revenue : ℤ := jsRound (item.currentPrice * trader.buyMultiplier * quantity)
      let newSupply := min item.maxStock (item.supply + quantity)
      let fItem := fun it =>
        { it with supply := min it.maxStock (it.supply + quantity),
                  demand := max 0 (it.demand - quantity * (5 / 1000)) }
      let fTrader := fun tr => { tr with items := updItem fItem itemId tr.items }
      let econ2 := { econ with traders := updTrader fTrader traderId econ.traders }
      let econ3 := recordTransaction econ2 itemId quantity false
      (econ3, { p with credits := p.credits + (revenue : ℚ) },
       { success := true, revenue := (revenue : ℚ), newSupply := newSupply })

/-- getEventMultiplier from core/economy.ts: product of the multipliers of all
active events that target the item. -/
def getEventMultiplier (events : List EconomicEvent) (itemId : String) : ℚ :=
  events.foldl (fun m e => if itemId ∈ e.affectedItems then m * e.multiplier else m) 1

/-- updateItemPrice from core/economy.ts:
currentPrice = max(1, round(basePrice * (1 + volatility * (demand - supply/maxStock))
* eventMultiplier)). -/
def updateItemPrice (events : List EconomicEvent) (item : MarketItem) : MarketItem :=
  let supplyRatio := item.supply / item.maxStock
  let priceChange := item.volatility * (item.demand - supplyRatio)
  let newPrice := item.basePrice * (1 + priceChange)
  let eventMultiplier := getEventMultiplier events item.id
  { item with currentPrice := max 1 ((jsRound (newPrice * eventMultiplier) : ℚ)) }

/-- restockItem from core/economy.ts. -/
def restockItem (item : MarketItem) : MarketItem :=
  if item.supply < item.maxStock then
    { item with supply := min item.maxStock (item.supply + item.restockRate) }
  else item

/-- restockTrader from core/economy.ts: resync each trader item's price to the
global price times the trader's sell multiplier and add floor(restockRate*0.5)
stock. globalItems is the simulator's item map at the time of the call. -/
def restockTrader (globalItems : List MarketItem) (tr : TraderInventory) : TraderInventory :=
  { tr with items := tr.items.map (fun ti =>
      match globalItems.find? (fun g => g.id = ti.id) with
      | none => ti
      | some g =>
        { ti with currentPrice := (jsRound (g.currentPrice * tr.sellMultiplier) : ℚ),
                  supply := min ti.maxStock (ti.supply + ((⌊g.restockRate * (1 / 2)⌋ : ℤ) : ℚ)) }) }

/-- processEvents from core/economy.ts: decrement every event's remaining tick
count and drop the ones that reach zero. -/
def processEvents (events : List EconomicEvent) : List EconomicEvent :=
  (events.map (fun e => { e with remaining := e.remaining - 1 })).filter
    (fun e => decide (0 < e.remaining))

/-- tick from core/economy.ts: update every item's price then restock it,
then run the trader restock cooldowns, then process events. -/
def tick (econ : EconSt) : EconSt :=
  let items2 := econ.items.map (fun it => restockItem (updateItemPrice econ.activeEvents it))
  let traders2 := econ.traders.map (fun tr =>
    if tr.restockCooldown ≤ 0 then { restockTrader items2 tr with restockCooldown := 5 }
    else { tr with restockCooldown := tr.restockCooldown - 1 })
  { items := items2, traders := traders2, activeEvents := processEvents econ.activeEvents }

/-! ## Policy and faction engine (core/factions.ts)

updateZoneInfluence, updateZoneControlStatus and checkZoneConflicts are
mutually recursive in the source (checkZoneConflicts calls
updateZoneInfluence to decay both conflicting factions), so the embedding
carries an explicit fuel; a result of none means the source call would
still be recursing after that many nested updateZoneInfluence calls. -/

/-- A faction from core/factions.ts (only the fields the embedded code reads). -/
structure Faction where
  id : String
  influence : ℤ
  aggression : ℤ
deriving Repr, DecidableEq

/-- The three default factions installed by initializeDefaultFactions. -/
def defaultFactions : List Faction :=
  [ { id := "merchant-guild", influence := 70, aggression := 20 },
    { id := "shadow-cabal", influence := 40, aggression := 80 },
    { id := "guard-corps", influence := 60, aggression := 30 } ]

/-- Map.get on the faction registry. -/
def getFaction (factions : List Faction) (factionId : String) : Option Faction :=
  factions.find? (fun f => f.id = factionId)

/-- ZoneControl from core/factions.ts: per-faction influence map (insertion
order), contested flag, controlling faction. -/
structure ZoneControl where
  influence : List (String × ℤ)
  contested : Bool
  controllingFactionId : Option String
deriving Repr, DecidableEq

/-- A conflict record (timestamp omitted: Date.now() plays no role in any claim). -/
structure Conflict where
  factionA : String
  factionB : String
  intensity : ℚ
deriving Repr, DecidableEq

/-- Zone-control state together with the conflict-event ring buffer. -/
structure ZoneSt where
  zone : ZoneControl
  conflicts : List Conflict
deriving Repr, DecidableEq

/-- Stable insertion into a descending-sorted influence list: the element goes
after every earlier element with a strictly greater value and before equal
ones, matching the stable JS sort((a, b) => b[1] - a[1]). -/
def insDesc (x : String × ℤ) : List (String × ℤ) → List (String × ℤ)
  | [] => [x]
  | y :: ys => if y.2 > x.2 then y :: insDesc x ys else x :: y :: ys

/-- Sort an influence entry list by influence descending (stable). -/
def sortDesc (l : List (String × ℤ)) : List (String × ℤ) :=
  l.foldr insDesc []

/-- updateZoneControlStatus from core/factions.ts, as a pure function of the
zone-control record. -/
def updateZoneControlStatus (zc : ZoneControl) : ZoneControl :=
  match sortDesc zc.influence with
  | [] => { zc with controllingFactionId := none, contested := false }
  | (topFaction, topInfluence) :: rest =>
    let contested : Bool := match rest with
      | [] => false
      | (_, secondInfluence) :: _ => decide (|topInfluence - secondInfluence| < 20)
    let controlling :=
      if topInfluence ≥ 60 ∧ contested = false then some topFaction else none
    { zc with contested := contested, controllingFactionId := controlling }

/-- recordConflict from core/factions.ts: push onto the conflict buffer and
shift the oldest entry off once the length exceeds 50. -/
def recordConflict (fa fb : String) (intensity : ℚ) (st : ZoneSt) : ZoneSt :=
  let l := st.conflicts ++ [{ factionA := fa, factionB := fb, intensity := intensity }]
  { st with conflicts := if l.length > 50 then l.drop 1 else l }

/-- updateZoneInfluence from core/factions.ts with checkZoneConflicts inlined
(in the source checkZoneConflicts is private and called only from here).
Clamps the faction's influence to [0,100], recomputes control status, then
checks for conflicts; a conflict records an event and recursively decays both
top factions' influence by 5 through updateZoneInfluence itself. -/
def updateZoneInfluence (factions : List Faction) :
    ℕ → String → ℤ → ZoneSt → Option ZoneSt
  | 0, _, _, _ => none
  | fuel + 1, factionId, delta, st =>
    let current := (lookupA factionId st.zone.influence).getD 0
    let newInfluence := max 0 (min 100 (current + delta))
    let zone1 := { st.zone with influence := setA factionId newInfluence st.zone.influence }
    let zone2 := updateZoneControlStatus zone1
    let st2 : ZoneSt := { st with zone := zone2 }
    if ¬zone2.contested then some st2
    else
      match sortDesc zone2.influence with
      | (fa, ia) :: (fb, ib) :: _ =>
        if |ia - ib| < 15 then
          match getFaction factions fa, getFaction factions fb with
          | some facA, some facB =>
            let intensity := ((facA.aggression : ℚ) + (facB.aggression : ℚ)) / 200
            let st3 := recordConflict fa fb intensity st2
            match updateZoneInfluence factions fuel fa (-5) st3 with
            | none => none
            | some st4 => updateZoneInfluence factions fuel fb (-5) st4
          | _, _ => some st2
        else some st2
      | _ => some st2

/-! ## World-state store (part_002 InMemoryState, the persistence-complete variant) -/

/-- A world event (types.ts WorldEvent). -/
structure WorldEvent where
  id : String
  title : String
  detail : String
  cityId : Option String
  npcId : Option String
  ts : ℤ
deriving Repr, DecidableEq

/-- A bug report (id, title, detail, timestamp — the shape consumed by
pushBugReport/processBugReports). -/
structure BugReport where
  id : String
  title : String
  detail : String
  ts : ℤ
deriving Repr, DecidableEq

/-- The collections of InMemoryState (part_002 variant). -/
structure StoreSt where
  players : List PState
  rooms : List Room
  cities : List City
  npcs : List Npc
  events : List WorldEvent
  glossary : List (String × String)
  bugReports : List BugReport
deriving Repr, DecidableEq

/-- The empty store (a freshly constructed InMemoryState with no seed). -/
def emptyStore : StoreSt :=
  { players := [], rooms := [], cities := [], npcs := [], events := [],
    glossary := [], bugReports := [] }

/-- A world spec handed to applyWorld/mergeWorld (types.ts WorldSpec). -/
structure WorldSpec where
  rooms : List Room
  cities : List City
  players : Option (List PState)
deriving Repr, DecidableEq

/-- applyWorld from part_002 InMemoryState: clear rooms, cities, players, npcs,
glossary and events, then set every incoming room/city/player by id.
(bugReports are not cleared by the source.) -/
def applyWorld (st : StoreSt) (spec : WorldSpec) : StoreSt :=
  { st with
      rooms := fromListBy Room.id spec.rooms,
      cities := fromListBy City.id spec.cities,
      players := fromListBy PState.id (spec.players.getD []),
      npcs := [],
      glossary := [],
      events := [] }

/-- mergeWorld from part_002 InMemoryState: set every incoming room/city/player
by id over the existing collections. -/
def mergeWorld (st : StoreSt) (spec : WorldSpec) : StoreSt :=
  { st with
      rooms := spec.rooms.foldl (fun acc r => upsertBy Room.id r acc) st.rooms,
      cities := spec.cities.foldl (fun acc c => upsertBy City.id c acc) st.cities,
      players := (spec.players.getD []).foldl (fun acc p => upsertBy PState.id p acc) st.players }

/-- pushEvent: unshift then pop past 50 (cap 50, newest first). -/
def pushEvent (st : StoreSt) (evt : WorldEvent) : StoreSt :=
  let l := evt :: st.events
  { st with events := if l.length > 50 then l.dropLast else l }

/-- pushBugReport: push then shift past 200 (cap 200, oldest dropped). -/
def pushBugReport (st : StoreSt) (report : BugReport) : StoreSt :=
  let l := st.bugReports ++ [report]
  { st with bugReports := if l.length > 200 then l.drop 1 else l }

/-- The PersistedState record. Every field is optional on the loading side:
the loader tolerates missing arrays (treated as empty). -/
structure PersistedState where
  players : Option (List PState)
  rooms : Option (List Room)
  cities : Option (List City)
  npcs : Option (List Npc)
  events : Option (List WorldEvent)
  glossary : Option (List (String × String))
  bugReports : Option (List BugReport)
deriving Repr, DecidableEq

/-- toPersistedState from part_002 InMemoryState: arrays of each collection's
values (all present). -/
def toPersistedState (st : StoreSt) : PersistedState :=
  { players := some st.players, rooms := some st.rooms, cities := some st.cities,
    npcs := some st.npcs, events := some st.events, glossary := some st.glossary,
    bugReports := some st.bugReports }

/-- loadPersistedState from part_002 InMemoryState: clear every collection,
then set each present array element by id; events are truncated with
slice(0, 50) and bug reports with slice(-100). -/
def loadPersistedState (st : StoreSt) (data : PersistedState) : StoreSt :=
  let br := data.bugReports.getD []
  { st with
      players := fromListBy PState.id (data.players.getD []),
      rooms := fromListBy Room.id (data.rooms.getD []),
      cities := fromListBy City.id (data.cities.getD []),
      npcs := fromListBy Npc.id (data.npcs.getD []),
      glossary := (data.glossary.getD []).foldl (fun acc e => setA e.1 e.2 acc) [],
      events := (data.events.getD []).take 50,
      bugReports := br.drop (br.length - 100) }

/-! ## Shared sample data for concrete instances -/

/-- The default city policy from loadDefaultWorld (New Bastion). -/
def dPolicy : CityPolicy :=
  { safetyLevel := 6 / 10,
    pvp := { onFlag := true, dropRule := "partial", penalty := "bounty" },
    tax := { trade := 5 / 100, withdraw := 2 / 100 } }

/-- A sample victim: credits 500, ten inventory items. -/
def victim500 : PState :=
  { id := "victim", location := "square",
    inventory := ["i1", "i2", "i3", "i4", "i5", "i6", "i7", "i8", "i9", "i10"],
    credits := 500, health := 100, hunger := 100, heat := 0, status := "ok",
    jobCooldowns := [], discoveredRooms := [], reputation := [] }

/-- A sample player with 1000 credits. -/
def player1000 : PState :=
  { id := "alice", location := "square", inventory := [], credits := 1000,
    health := 100, hunger := 100, heat := 0, status := "ok",
    jobCooldowns := [], discoveredRooms := [], reputation := [] }

/-- The iron-ore item of initializeDefaultItems, the claim's concrete instance:
basePrice 10, volatility 0.2, demand 0.5, supply 100, maxStock 200. -/
def ironOre : MarketItem :=
  { id := "iron-ore", basePrice := 10, currentPrice := 10, supply := 100,
    demand := 1 / 2, volatility := 1 / 5, restockRate := 5, maxStock := 200 }

/-- An economy whose catalogue is just iron-ore, with no traders or events. -/
def econIron : EconSt := { items := [ironOre], traders := [], activeEvents := [] }

/-- An economy with no traders at all. -/
def econEmpty : EconSt := { items := [], traders := [], activeEvents := [] }

/-! ## C9 — death-penalty algorithm -/

/-- Helper: the floor of len * 3/10 never exceeds len. -/
theorem floor_three_tenths_le (n : ℕ) : (⌊(n : ℚ) * (3 / 10)⌋).toNat ≤ n := by
  have h1 : ((n : ℚ) * (3 / 10)) ≤ (n : ℚ) := by
    nlinarith [Nat.cast_nonneg (α := ℚ) n]
  have h2 : (⌊(n : ℚ) * (3 / 10)⌋ : ℤ) ≤ (n : ℤ) := by
    have h3 := Int.floor_le_floor h1
    simpa using h3
  omega

/-- The credit-loss component of calculateDeathPenalty. -/
theorem calcDP_creditLoss (p : PState) (cp : Option CityPolicy) (isPvP : Bool) :
    (calculateDeathPenalty p cp isPvP).creditLoss =
      ⌊p.credits * (if isPvP then 2 / 10 else 1 / 10)⌋ := by
  cases isPvP <;> rfl

/-- The item-loss count of calculateDeathPenalty under drop rule "partial". -/
theorem calcDP_partial_len (p : PState) (cp : Option CityPolicy) (isPvP : Bool)
    (hdrop : (cp.map (fun c => c.pvp.dropRule)).getD "partial" = "partial") :
    (calculateDeathPenalty p cp isPvP).itemLoss.length =
      (⌊(p.inventory.length : ℚ) * (3 / 10)⌋).toNat := by
  unfold calculateDeathPenalty
  simp only [hdrop]
  by_cases hlen : p.inventory.length > 0
  · rw [if_pos hlen,
      if_neg (by simp : ¬(("partial" : String) = "full" ∧ isPvP = true))]
    simp only [if_true, List.length_take]
    exact Nat.min_eq_left (floor_three_tenths_le p.inventory.length)
  · rw [if_neg hlen]
    have h0 : p.inventory.length = 0 := by omega
    simp [h0]

/-- C9: the death penalty computes creditLoss = floor(credits * 0.20) for a
pvp kill and floor(credits * 0.10) otherwise, and under drop rule "partial"
drops floor(inventorySize * 0.30) items; in particular credits = 500,
inventory size = 10, pvp, dropRule "partial" gives creditLoss = 100 and
3 items dropped. -/
theorem C9_death_penalty (p : PState) (cp : Option CityPolicy)
    (hdrop : (cp.map (fun c => c.pvp.dropRule)).getD "partial" = "partial") :
    (∀ isPvP, (calculateDeathPenalty p cp isPvP).creditLoss =
      ⌊p.credits * (if isPvP then 2 / 10 else 1 / 10)⌋) ∧
    (∀ isPvP, (calculateDeathPenalty p cp isPvP).itemLoss.length =
      (⌊(p.inventory.length : ℚ) * (3 / 10)⌋).toNat) ∧
    (calculateDeathPenalty victim500 (some dPolicy) true).creditLoss = 100 ∧
    (calculateDeathPenalty victim500 (some dPolicy) true).itemLoss.length = 3 := by
  refine ⟨fun isPvP => calcDP_creditLoss p cp isPvP,
          fun isPvP => calcDP_partial_len p cp isPvP hdrop, ?_, ?_⟩
  · rw [calcDP_creditLoss]
    norm_num [victim500]
  · rw [calcDP_partial_len victim500 (some dPolicy) true rfl]
    have hlen : victim500.inventory.length = 10 := rfl
    rw [hlen]
    have h3 : ⌊((10 : ℕ) : ℚ) * (3 / 10)⌋ = 3 := by norm_num
    rw [h3]
    rfl

/-- Witness for C9 at the claim's concrete input. -/
theorem C9_death_penalty_witness :
    ((some dPolicy).map (fun c => c.pvp.dropRule)).getD "partial" = "partial" ∧
    (calculateDeathPenalty victim500 (some dPolicy) true).creditLoss = 100 :=
  ⟨rfl, (C9_death_penalty victim500 (some dPolicy) rfl).2.2.1⟩

/-! ## C3 — withdraw operation -/

/-- C3 counterexample: the claim states the fee is ceil(amount * tax.withdraw).
At amount = 1 against the default policy (tax.withdraw = 0.02) the part_003
handler charges exactly amount * rate = 0.02 and leaves 998.98 credits, not
the 1000 - 1 - ceil(0.02) = 998 the ceil formula would give. -/
theorem C3_withdraw_ceil_counterexample :
    (withdrawAlt (some dPolicy) 1 player1000).success = true ∧
    (withdrawAlt (some dPolicy) 1 player1000).state.credits = 49949 / 50 ∧
    (withdrawAlt (some dPolicy) 1 player1000).feeAmt ≠ ((⌈(1 : ℚ) * (2 / 100)⌉ : ℤ) : ℚ) ∧
    (withdrawAlt (some dPolicy) 1 player1000).state.credits ≠
      1000 - 1 - ((⌈(1 : ℚ) * (2 / 100)⌉ : ℤ) : ℚ) := by
  have hc : (⌈(1 : ℚ) * (2 / 100)⌉ : ℤ) = 1 := by
    rw [Int.ceil_eq_iff] <;> norm_num
  refine ⟨?_, ?_, ?_, ?_⟩
  · norm_num [withdrawAlt, dPolicy, player1000, jsOrDefaultRate]
  · norm_num [withdrawAlt, dPolicy, player1000, jsOrDefaultRate]
  · rw [hc]; norm_num [withdrawAlt, dPolicy, player1000, jsOrDefaultRate]
  · rw [hc]; norm_num [withdrawAlt, dPolicy, player1000, jsOrDefaultRate]

/-- C3 (amended): the part_003 withdraw handler charges a fee of exactly
amount * city.tax.withdraw with no rounding (total debit amount * (1 + rate),
refused when it exceeds the balance), the concrete instance credits = 1000,
tax.withdraw = 0.02, amount = 100 yields fee 2 and balance 898, and the
handler never lets credits go below 0. -/
theorem C3_withdraw (city : Option CityPolicy) (amount : ℚ) (p : PState)
    (h0 : 0 ≤ p.credits) :
    0 ≤ (withdrawAlt city amount p).state.credits ∧
    ((withdrawAlt city amount p).success = true →
      (withdrawAlt city amount p).feeAmt =
        amount * jsOrDefaultRate (city.map (fun c => c.tax.withdraw)) ∧
      (withdrawAlt city amount p).state.credits =
        p.credits - amount * (1 + jsOrDefaultRate (city.map (fun c => c.tax.withdraw)))) ∧
    (withdrawAlt (some dPolicy) 100 player1000).state.credits = 898 ∧
    (withdrawAlt (some dPolicy) 100 player1000).feeAmt = 2 := by
  refine ⟨?_, ?_, ?_, ?_⟩
  · simp only [withdrawAlt]
    split_ifs with h1 h2
    · exact h0
    · exact h0
    · exact le_max_left 0 _
  · simp only [withdrawAlt]
    split_ifs with h1 h2
    · intro h; simp at h
    · intro h; simp at h
    · intro _
      refine ⟨rfl, ?_⟩
      show max 0 _ = _
      rw [max_eq_right (by linarith [not_lt.mp h2])]
  · norm_num [withdrawAlt, dPolicy, player1000, jsOrDefaultRate]
  · norm_num [withdrawAlt, dPolicy, player1000, jsOrDefaultRate]

/-- Witness for C3 at the claim's concrete input. -/
theorem C3_withdraw_witness :
    0 ≤ player1000.credits ∧ 0 ≤ (withdrawAlt (some dPolicy) 100 player1000).state.credits :=
  ⟨by norm_num [player1000], (C3_withdraw (some dPolicy) 100 player1000 (by norm_num [player1000])).1⟩

/-! ## C8 — economic tick price formula -/

/-- restockItem never changes the price. -/
theorem restockItem_price (it : MarketItem) :
    (restockItem it).currentPrice = it.currentPrice := by
  unfold restockItem; split <;> rfl

/-- C8: one economic tick sets every catalogue item's price to
max(1, round(basePrice * (1 + volatility * (demand - supply/maxStock)) *
eventMultiplier)) computed from the pre-tick fields, where eventMultiplier is
the product of the active event multipliers targeting the item; the concrete
instance basePrice 10, volatility 0.2, demand 0.5, supply 100, maxStock 200
with no events keeps the price at 10. (The positivity hypothesis excludes the
supply/0 case, which the exact-rational embedding cannot express: in JS it
would produce NaN.) -/
theorem C8_tick_price (econ : EconSt) (hpos : ∀ it ∈ econ.items, 0 < it.maxStock) :
    ((tick econ).items.map (fun it => it.currentPrice)) =
      econ.items.map (fun it =>
        max 1 ((jsRound (it.basePrice *
          (1 + it.volatility * (it.demand - it.supply / it.maxStock)) *
          getEventMultiplier econ.activeEvents it.id) : ℚ))) ∧
    ((tick econIron).items.map (fun it => it.currentPrice)) = [10] := by
  constructor
  · unfold tick
    simp only [List.map_map]
    refine List.map_congr_left (fun it _ => ?_)
    show (restockItem (updateItemPrice econ.activeEvents it)).currentPrice = _
    rw [restockItem_price]
    rfl
  · show [(restockItem (updateItemPrice [] ironOre)).currentPrice] = [10]
    rw [restockItem_price]
    norm_num [updateItemPrice, ironOre, getEventMultiplier, jsRound]

/-- Witness for C8 at the claim's concrete economy. -/
theorem C8_tick_price_witness :
    (∀ it ∈ econIron.items, 0 < it.maxStock) ∧
    ((tick econIron).items.map (fun it => it.currentPrice)) = [10] :=
  ⟨by norm_num [econIron, ironOre], (C8_tick_price econIron (by norm_num [econIron, ironOre])).2⟩

/-! ## C10 — failed purchases mutate nothing -/

/-- C10: whenever buyItem reports success = false (unknown trader, item not
stocked, supply below quantity, or credits below cost), the economy state —
including the trader-local item's supply and demand and the global item's
demand — and the player are both left exactly as they were. -/
theorem C10_buy_no_mutation (econ : EconSt) (itemId traderId : String) (qty : ℚ)
    (p : PState) (h : (buyItem econ itemId traderId qty p).2.2.success = false) :
    (buyItem econ itemId traderId qty p).1 = econ ∧
    (buyItem econ itemId traderId qty p).2.1 = p := by
  rcases hfind : econ.traders.find? (fun tr => tr.traderId = traderId) with _ | trader
  · constructor <;> simp [buyItem, hfind]
  · rcases hitem : trader.items.find? (fun it => it.id = itemId) with _ | item
    · constructor <;> simp [buyItem, hfind, hitem]
    · by_cases h3 : item.supply < qty
      · constructor <;> simp [buyItem, hfind, hitem, h3]
      · by_cases h4 : p.credits < item.currentPrice * qty
        · constructor <;> simp [buyItem, hfind, hitem, h3, h4]
        · exfalso
          simp [buyItem, hfind, hitem, h3, h4] at h

/-- Witness for C10: buying from a nonexistent trader fails and mutates nothing. -/
theorem C10_buy_no_mutation_witness :
    (buyItem econEmpty "iron-ore" "ghost-trader" 1 player1000).2.2.success = false ∧
    (buyItem econEmpty "iron-ore" "ghost-trader" 1 player1000).1 = econEmpty := by
  constructor
  · rfl
  · exact (C10_buy_no_mutation econEmpty "iron-ore" "ghost-trader" 1 player1000 rfl).1

/-! ## Map lemmas for the store -/

/-- Setting a key that is not yet present appends the entry. -/
theorem upsertBy_append {α : Type} (key : α → String) (x : α) (acc : List α)
    (h : key x ∉ acc.map key) : upsertBy key x acc = acc ++ [x] := by
  induction acc with
  | nil => rfl
  | cons y ys ih =>
    simp only [List.map_cons, List.mem_cons] at h
    push_neg at h
    unfold upsertBy
    rw [if_neg (fun hh => h.1 hh.symm)]
    rw [ih h.2]
    rfl

/-- Sequentially setting entries with fresh, pairwise distinct keys appends
them in order. -/
theorem foldl_upsert_of_disjoint {α : Type} (key : α → String) (l : List α)
    (acc : List α) (hnd : (l.map key).Nodup) (hdis : ∀ x ∈ l, key x ∉ acc.map key) :
    l.foldl (fun a b => upsertBy key b a) acc = acc ++ l := by
  induction l generalizing acc with
  | nil => simp
  | cons b bs ih =>
    simp only [List.foldl_cons]
    rw [upsertBy_append key b acc (hdis b (by simp))]
    have hnd2 : (bs.map key).Nodup := (List.nodup_cons.mp (by simpa using hnd)).2
    have hb : key b ∉ bs.map key := (List.nodup_cons.mp (by simpa using hnd)).1
    rw [ih (acc ++ [b]) hnd2 ?_]
    · simp
    · intro x hx
      simp only [List.map_append, List.mem_append]
      rintro (hmem | hmem)
      · exact hdis x (List.mem_cons_of_mem b hx) hmem
      · simp only [List.map_cons, List.map_nil, List.mem_singleton] at hmem
        exact hb (hmem ▸ List.mem_map_of_mem key hx)

/-- Rebuilding a map from a list of entries with distinct keys reproduces
the list. -/
theorem fromListBy_eq_self {α : Type} (key : α → String) (l : List α)
    (hnd : (l.map key).Nodup) : fromListBy key l = l := by
  unfold fromListBy
  rw [foldl_upsert_of_disjoint key l [] hnd (by simp)]
  simp

/-- After setting x, looking up x's key finds x. -/
theorem find?_upsertBy_self {α : Type} (key : α → String) (x : α) (l : List α) :
    (upsertBy key x l).find? (fun y => key y = key x) = some x := by
  have hdx : decide (key x = key x) = true := decide_eq_true rfl
  induction l with
  | nil =>
    show List.find? _ [x] = some x
    simp only [List.find?, hdx, decide_True]
  | cons y ys ih =>
    unfold upsertBy
    by_cases h : key y = key x
    · rw [if_pos h]
      show List.find? _ (x :: ys) = some x
      simp only [List.find?, hdx, decide_True]
    · rw [if_neg h]
      show List.find? _ (y :: upsertBy key x ys) = some x
      simp only [List.find?, decide_eq_false h]
      exact ih

/-- Setting x leaves lookups of other keys unchanged. -/
theorem find?_upsertBy_ne {α : Type} (key : α → String) (x : α) (l : List α)
    (k : String) (hk : ¬k = key x) :
    (upsertBy key x l).find? (fun y => key y = k) = l.find? (fun y => key y = k) := by
  have hdx : decide (key x = k) = false := decide_eq_false (fun hh => hk hh.symm)
  induction l with
  | nil =>
    show List.find? _ [x] = List.find? _ []
    simp only [List.find?, hdx]
  | cons y ys ih =>
    unfold upsertBy
    by_cases h : key y = key x
    · rw [if_pos h]
      have hdy : decide (key y = k) = false :=
        decide_eq_false (fun hh => hk (hh ▸ h))
      show List.find? _ (x :: ys) = List.find? _ (y :: ys)
      simp only [List.find?, hdx, hdy]
    · rw [if_neg h]
      show List.find? _ (y :: upsertBy key x ys) = List.find? _ (y :: ys)
      by_cases hy : key y = k
      · simp only [List.find?, decide_eq_true hy]
      · simp only [List.find?, decide_eq_false hy]
        exact ih

/-- Folding sets whose keys all differ from k does not disturb a lookup of k. -/
theorem find?_foldl_upsert_not_mem {α : Type} (key : α → String) (bs : List α)
    (acc : List α) (k : String) (h : ∀ b ∈ bs, ¬k = key b) :
    (bs.foldl (fun a b => upsertBy key b a) acc).find? (fun y => key y = k) =
      acc.find? (fun y => key y = k) := by
  induction bs generalizing acc with
  | nil => rfl
  | cons b bs ih =>
    simp only [List.foldl_cons]
    rw [ih _ (fun b2 hb2 => h b2 (List.mem_cons_of_mem b hb2))]
    exact find?_upsertBy_ne key b acc k (h b (by simp))

/-- After folding sets of entries with pairwise distinct keys, each entry is
found under its own key. -/
theorem find?_foldl_upsert_mem {α : Type} (key : α → String) (l : List α)
    (acc : List α) (hnd : (l.map key).Nodup) (x : α) (hx : x ∈ l) :
    (l.foldl (fun a b => upsertBy key b a) acc).find? (fun y => key y = key x) = some x := by
  induction l generalizing acc with
  | nil => cases hx
  | cons b bs ih =>
    have hnd2 : (bs.map key).Nodup := (List.nodup_cons.mp (by simpa using hnd)).2
    have hb : key b ∉ bs.map key := (List.nodup_cons.mp (by simpa using hnd)).1
    rcases List.mem_cons.mp hx with rfl | hx2
    · simp only [List.foldl_cons]
      rw [find?_foldl_upsert_not_mem key bs _ (key x)
            (fun b2 hb2 => fun hh => hb (hh ▸ List.mem_map_of_mem key hb2))]
      exact find?_upsertBy_self key x acc
    · simp only [List.foldl_cons]
      exact ih _ hnd2 hx2

/-! ## C4 — applyWorld / mergeWorld do not validate references -/

/-- A room whose neighbor list and city reference both dangle. -/
def roomDangling : Room :=
  { id := "a", name := "A", neighbors := ["ghost"], cityId := some "nocity", zone := "wild" }

/-- A world spec containing only the dangling room (and no cities). -/
def specDangling : WorldSpec := { rooms := [roomDangling], cities := [], players := none }

/-- The central-square room of the default world. -/
def roomSquare : Room :=
  { id := "square", name := "中央广场", neighbors := ["north_gate", "market"],
    cityId := some "bastion", zone := "city" }

/-- A store seeded with the square room. -/
def storeSeed : StoreSt := { emptyStore with rooms := [roomSquare] }

/-- C4 counterexample: the incoming spec references a neighbor id and a city
id that do not exist in the spec, yet applyWorld and mergeWorld both commit
it — the store is changed, not left unchanged, and no rejection happens. -/
theorem C4_no_validation_counterexample :
    ((specDangling.rooms.map Room.id).contains "ghost" = false) ∧
    ((specDangling.cities.map City.id).contains "nocity" = false) ∧
    roomDangling.neighbors = ["ghost"] ∧ roomDangling.cityId = some "nocity" ∧
    (applyWorld storeSeed specDangling).rooms = [roomDangling] ∧
    ¬(applyWorld storeSeed specDangling).rooms = storeSeed.rooms ∧
    (mergeWorld storeSeed specDangling).rooms = [roomSquare, roomDangling] ∧
    ¬(mergeWorld storeSeed specDangling).rooms = storeSeed.rooms := by
  refine ⟨rfl, rfl, rfl, rfl, rfl, by decide, rfl, by decide⟩

/-- C4 (amended): applyWorld unconditionally replaces the store's rooms,
cities and players with the incoming spec (clearing npcs, events and the
glossary, keeping bug reports), and mergeWorld unconditionally upserts every
incoming room/city/player by id over the existing collections; neither
operation validates neighbor or city references, so a spec with dangling
references is committed rather than rejected. -/
theorem C4_apply_merge_world (st : StoreSt) (spec : WorldSpec)
    (hr : (spec.rooms.map Room.id).Nodup) (hc : (spec.cities.map City.id).Nodup)
    (hp : (((spec.players.getD []).map PState.id)).Nodup) :
    (applyWorld st spec).rooms = spec.rooms ∧
    (applyWorld st spec).cities = spec.cities ∧
    (applyWorld st spec).players = spec.players.getD [] ∧
    (applyWorld st spec).npcs = [] ∧
    (applyWorld st spec).events = [] ∧
    (applyWorld st spec).glossary = [] ∧
    (applyWorld st spec).bugReports = st.bugReports ∧
    (∀ r ∈ spec.rooms,
      (mergeWorld st spec).rooms.find? (fun y => y.id = r.id) = some r) ∧
    (∀ c ∈ spec.cities,
      (mergeWorld st spec).cities.find? (fun y => y.id = c.id) = some c) ∧
    (mergeWorld st spec).npcs = st.npcs ∧
    (mergeWorld st spec).events = st.events ∧
    (mergeWorld st spec).bugReports = st.bugReports := by
  refine ⟨?_, ?_, ?_, rfl, rfl, rfl, rfl, ?_, ?_, rfl, rfl, rfl⟩
  · exact fromListBy_eq_self Room.id spec.rooms hr
  · exact fromListBy_eq_self City.id spec.cities hc
  · exact fromListBy_eq_self PState.id (spec.players.getD []) hp
  · exact fun r hrm => find?_foldl_upsert_mem Room.id spec.rooms st.rooms hr r hrm
  · exact fun c hcm => find?_foldl_upsert_mem City.id spec.cities st.cities hc c hcm

/-- Witness for C4 (amended) at a concrete spec. -/
theorem C4_apply_merge_world_witness :
    (specDangling.rooms.map Room.id).Nodup ∧
    (applyWorld storeSeed specDangling).rooms = specDangling.rooms :=
  ⟨by decide,
   (C4_apply_merge_world storeSeed specDangling (by decide) (by decide) (by decide)).1⟩

/-! ## C7 — snapshot round trip -/

/-- 101 sample bug reports. -/
def manyReports : List BugReport :=
  (List.range 101).map (fun i => { id := toString i, title := "t", detail := "d", ts := 0 })

/-- A store holding 101 bug reports (within the live cap of 200). -/
def storeWithReports : StoreSt := { emptyStore with bugReports := manyReports }

/-- C7 counterexample: the live store caps bug reports at 200 (pushBugReport),
but the loader truncates to the LAST 100 (slice(-100)); a store with 101 bug
reports — legal under the live cap — loses a report on a save/load round trip. -/
theorem C7_roundtrip_counterexample :
    storeWithReports.bugReports.length = 101 ∧
    (∀ r, (pushBugReport storeWithReports r).bugReports.length = 102) ∧
    (loadPersistedState emptyStore (toPersistedState storeWithReports)).bugReports.length
      = 100 ∧
    ¬(loadPersistedState emptyStore (toPersistedState storeWithReports)).bugReports
      = storeWithReports.bugReports := by
  have hlen : storeWithReports.bugReports.length = 101 := by
    simp [storeWithReports, manyReports, emptyStore]
  refine ⟨hlen, ?_, ?_, ?_⟩
  · intro r
    have : (storeWithReports.bugReports ++ [r]).length = 102 := by simp [hlen]
    simp [pushBugReport, this]
  · simp [loadPersistedState, toPersistedState, hlen]
  · intro hEq
    have := congrArg List.length hEq
    rw [hlen] at this
    simp [loadPersistedState, toPersistedState, hlen] at this

/-- C7 (amended): a save/load round trip into any store reproduces the
player, room, city and NPC collections exactly (given well-formed id keys)
and the glossary, truncates events to the first (newest) 50 — the same cap
the live store applies — but truncates bug reports to the LAST 100, half the
live store's cap of 200; the loader tolerates missing optional arrays,
treating every absent collection as empty. -/
theorem C7_snapshot_roundtrip (st st0 : StoreSt)
    (hp : (st.players.map PState.id).Nodup) (hr : (st.rooms.map Room.id).Nodup)
    (hc : (st.cities.map City.id).Nodup) (hn : (st.npcs.map Npc.id).Nodup)
    (hg : (st.glossary.map Prod.fst).Nodup) :
    (loadPersistedState st0 (toPersistedState st)).players = st.players ∧
    (loadPersistedState st0 (toPersistedState st)).rooms = st.rooms ∧
    (loadPersistedState st0 (toPersistedState st)).cities = st.cities ∧
    (loadPersistedState st0 (toPersistedState st)).npcs = st.npcs ∧
    (loadPersistedState st0 (toPersistedState st)).glossary = st.glossary ∧
    (loadPersistedState st0 (toPersistedState st)).events = st.events.take 50 ∧
    (loadPersistedState st0 (toPersistedState st)).bugReports =
      st.bugReports.drop (st.bugReports.length - 100) ∧
    (∀ st1, loadPersistedState st1
      { players := none, rooms := none, cities := none, npcs := none,
        events := none, glossary := none, bugReports := none } = emptyStore) := by
  refine ⟨?_, ?_, ?_, ?_, ?_, rfl, rfl, fun st1 => rfl⟩
  · exact fromListBy_eq_self PState.id st.players hp
  · exact fromListBy_eq_self Room.id st.rooms hr
  · exact fromListBy_eq_self City.id st.cities hc
  · exact fromListBy_eq_self Npc.id st.npcs hn
  · show st.glossary.foldl (fun acc e => setA e.1 e.2 acc) [] = st.glossary
    have : ∀ (l acc : List (String × String)),
        l.foldl (fun acc e => setA e.1 e.2 acc) acc =
        l.foldl (fun a b => upsertBy Prod.fst b a) acc := by
      intro l
      induction l with
      | nil => intro acc; rfl
      | cons e es ih => intro acc; simp only [List.foldl_cons]; rw [ih]; rfl
    rw [this]
    exact fromListBy_eq_self Prod.fst st.glossary hg

/-- Witness for C7 (amended) at a concrete store. -/
theorem C7_snapshot_roundtrip_witness :
    (storeWithReports.players.map PState.id).Nodup ∧
    (loadPersistedState emptyStore (toPersistedState storeWithReports)).players
      = storeWithReports.players :=
  ⟨by decide,
   (C7_snapshot_roundtrip storeWithReports emptyStore (by decide) (by decide)
      (by decide) (by decide) (by decide)).1⟩

/-! ## C5 / C6 — zone influence, contested status, and conflict recursion -/

/-- Helper for C6: the decay step checkZoneConflicts triggers on a two-faction
zone (merchant-guild and guard-corps) never returns: whichever of the two is
on top is decayed by 5 through a recursive updateZoneInfluence call whose
post-clamp gap is again under 15, so every fuel bound is exhausted. -/
theorem conflict_decay_diverges :
    ∀ (n : ℕ) (a b : ℤ) (ct : Bool) (cl : Option String) (conf : List Conflict)
      (fid : String),
      0 ≤ a → a ≤ 100 → 0 ≤ b → b ≤ 100 →
      ((fid = "merchant-guild" ∧ b ≤ a ∧ a - b < 15) ∨
       (fid = "guard-corps" ∧ a ≤ b ∧ b - a < 15)) →
      updateZoneInfluence defaultFactions n fid (-5)
        ⟨⟨[("merchant-guild", a), ("guard-corps", b)], ct, cl⟩, conf⟩ = none := by
  intro n
  induction n with
  | zero => intros; rfl
  | succ m ih =>
    intro a b ct cl conf fid ha0 ha1 hb0 hb1 hfid
    have hgf1 : getFaction defaultFactions "merchant-guild" =
        some { id := "merchant-guild", influence := 70, aggression := 20 } := rfl
    have hgf2 : getFaction defaultFactions "guard-corps" =
        some { id := "guard-corps", influence := 60, aggression := 30 } := rfl
    rcases hfid with ⟨rfl, hba, hgap⟩ | ⟨rfl, hab, hgap⟩
    · by_cases hcmp : b > 0 ⊔ 100 ⊓ (a + -5)
      · have h20 : |b - (0 ⊔ 100 ⊓ (a + -5))| < 20 := by
          rw [abs_sub_lt_iff]; constructor <;> omega
        have h15 : |b - (0 ⊔ 100 ⊓ (a + -5))| < 15 := by
          rw [abs_sub_lt_iff]; constructor <;> omega
        have hA0 : (0 : ℤ) ≤ 0 ⊔ 100 ⊓ (a + -5) := le_sup_left
        have hA1 : (0 : ℤ) ⊔ 100 ⊓ (a + -5) ≤ 100 := by omega
        have hAb : (0 : ℤ) ⊔ 100 ⊓ (a + -5) ≤ b := le_of_lt hcmp
        have hgap2 : b - (0 ⊔ 100 ⊓ (a + -5)) < 15 := (abs_sub_lt_iff.mp h15).1
        simp only [updateZoneInfluence, lookupA, setA, upsertBy, sortDesc, insDesc,
          updateZoneControlStatus, recordConflict, List.foldr, Option.getD,
          String.reduceEq, reduceIte, decide_True, decide_False, Bool.not_true,
          Bool.not_false, if_true, if_false, hcmp, h20, h15, hgf1, hgf2,
          not_true, eq_self_iff_true, Bool.true_eq_false]
        rw [ih _ b true _ _ "guard-corps" hA0 hA1 hb0 hb1
          (Or.inr ⟨rfl, hAb, hgap2⟩)]
      · have hbA : b ≤ 0 ⊔ 100 ⊓ (a + -5) := not_lt.mp hcmp
        have h20 : |(0 ⊔ 100 ⊓ (a + -5)) - b| < 20 := by
          rw [abs_sub_lt_iff]; constructor <;> omega
        have h15 : |(0 ⊔ 100 ⊓ (a + -5)) - b| < 15 := by
          rw [abs_sub_lt_iff]; constructor <;> omega
        have hA0 : (0 : ℤ) ≤ 0 ⊔ 100 ⊓ (a + -5) := le_sup_left
        have hA1 : (0 : ℤ) ⊔ 100 ⊓ (a + -5) ≤ 100 := by omega
        have hgap2 : (0 ⊔ 100 ⊓ (a + -5)) - b < 15 := (abs_sub_lt_iff.mp h15).1
        simp only [updateZoneInfluence, lookupA, setA, upsertBy, sortDesc, insDesc,
          updateZoneControlStatus, recordConflict, List.foldr, Option.getD,
          String.reduceEq, reduceIte, decide_True, decide_False, Bool.not_true,
          Bool.not_false, if_true, if_false, hcmp, h20, h15, hgf1, hgf2,
          not_true, eq_self_iff_true, Bool.true_eq_false]
        rw [ih _ b true _ _ "merchant-guild" hA0 hA1 hb0 hb1
          (Or.inl ⟨rfl, hbA, hgap2⟩)]
    · by_cases hcmp : 0 ⊔ 100 ⊓ (b + -5) > a
      · have h20 : |(0 ⊔ 100 ⊓ (b + -5)) - a| < 20 := by
          rw [abs_sub_lt_iff]; constructor <;> omega
        have h15 : |(0 ⊔ 100 ⊓ (b + -5)) - a| < 15 := by
          rw [abs_sub_lt_iff]; constructor <;> omega
        have hB0 : (0 : ℤ) ≤ 0 ⊔ 100 ⊓ (b + -5) := le_sup_left
        have hB1 : (0 : ℤ) ⊔ 100 ⊓ (b + -5) ≤ 100 := by omega
        have haB : a ≤ 0 ⊔ 100 ⊓ (b + -5) := le_of_lt hcmp
        have hgap2 : (0 ⊔ 100 ⊓ (b + -5)) - a < 15 := (abs_sub_lt_iff.mp h15).1
        simp only [updateZoneInfluence, lookupA, setA, upsertBy, sortDesc, insDesc,
          updateZoneControlStatus, recordConflict, List.foldr, Option.getD,
          String.reduceEq, reduceIte, decide_True, decide_False, Bool.not_true,
          Bool.not_false, if_true, if_false, hcmp, h20, h15, hgf1, hgf2,
          not_true, eq_self_iff_true, Bool.true_eq_false]
        rw [ih a _ true _ _ "guard-corps" ha0 ha1 hB0 hB1
          (Or.inr ⟨rfl, haB, hgap2⟩)]
      · have hBa : 0 ⊔ 100 ⊓ (b + -5) ≤ a := not_lt.mp hcmp
        have h20 : |a - (0 ⊔ 100 ⊓ (b + -5))| < 20 := by
          rw [abs_sub_lt_iff]; constructor <;> omega
        have h15 : |a - (0 ⊔ 100 ⊓ (b + -5))| < 15 := by
          rw [abs_sub_lt_iff]; constructor <;> omega
        have hB0 : (0 : ℤ) ≤ 0 ⊔ 100 ⊓ (b + -5) := le_sup_left
        have hB1 : (0 : ℤ) ⊔ 100 ⊓ (b + -5) ≤ 100 := by omega
        have hgap2 : a - (0 ⊔ 100 ⊓ (b + -5)) < 15 := (abs_sub_lt_iff.mp h15).1
        simp only [updateZoneInfluence, lookupA, setA, upsertBy, sortDesc, insDesc,
          updateZoneControlStatus, recordConflict, List.foldr, Option.getD,
          String.reduceEq, reduceIte, decide_True, decide_False, Bool.not_true,
          Bool.not_false, if_true, if_false, hcmp, h20, h15, hgf1, hgf2,
          not_true, eq_self_iff_true, Bool.true_eq_false]
        rw [ih a _ true _ _ "merchant-guild" ha0 ha1 hB0 hB1
          (Or.inl ⟨rfl, hBa, hgap2⟩)]

/-- The zone state of the C6 failing input: merchant-guild at 65 and
guard-corps at 60 influence, no conflicts recorded yet. -/
def zone6560 : ZoneSt :=
  { zone := { influence := [("merchant-guild", 65), ("guard-corps", 60)],
              contested := true, controllingFactionId := none },
    conflicts := [] }

/-- The status recompute leaves the influence map untouched. -/
theorem updateZoneControlStatus_influence (zc : ZoneControl) :
    (updateZoneControlStatus zc).influence = zc.influence := by
  unfold updateZoneControlStatus
  split <;> rfl

/-- The invariant updateZoneControlStatus establishes: contested holds iff at
least two factions have influence recorded and the top two (after the
descending sort) are fewer than 20 points apart, and the controlling faction
is the top faction iff its influence is at least 60 and the zone is not
contested, else null. -/
def StatusConsistent (zc : ZoneControl) : Prop :=
  (zc.contested = true ↔
    ∃ fa ia fb ib rest, sortDesc zc.influence = (fa, ia) :: (fb, ib) :: rest ∧
      |ia - ib| < 20) ∧
  (∀ tf ti rest, sortDesc zc.influence = (tf, ti) :: rest →
    zc.controllingFactionId =
      if ti ≥ 60 ∧ zc.contested = false then some tf else none) ∧
  (sortDesc zc.influence = [] → zc.controllingFactionId = none)

theorem status_consistent (zc : ZoneControl) :
    StatusConsistent (updateZoneControlStatus zc) := by
  unfold StatusConsistent
  rw [updateZoneControlStatus_influence]
  unfold updateZoneControlStatus
  cases hs : sortDesc zc.influence with
  | nil => simp
  | cons top rest0 =>
    obtain ⟨tf0, ti0⟩ := top
    cases rest0 with
    | nil =>
      refine ⟨by simp, ?_, by simp⟩
      intro tf ti rest heq
      obtain ⟨h1, h2⟩ := List.cons.inj heq
      obtain ⟨rfl, rfl⟩ := Prod.mk.inj h1
      rfl
    | cons second rest1 =>
      obtain ⟨sf, si⟩ := second
      refine ⟨?_, ?_, ?_⟩
      · simp only [decide_eq_true_eq]
        constructor
        · intro hlt
          exact ⟨tf0, ti0, sf, si, rest1, rfl, hlt⟩
        · rintro ⟨fa, ia, fb, ib, rest, heq, hlt⟩
          obtain ⟨h1, h2⟩ := List.cons.inj heq
          obtain ⟨h3, h4⟩ := List.cons.inj h2
          obtain ⟨rfl, rfl⟩ := Prod.mk.inj h1
          obtain ⟨rfl, rfl⟩ := Prod.mk.inj h3
          exact hlt
      · intro tf ti rest heq
        obtain ⟨h1, h2⟩ := List.cons.inj heq
        obtain ⟨rfl, rfl⟩ := Prod.mk.inj h1
        rfl
      · intro h; cases h

/-- After any successful (terminating) updateZoneInfluence call the zone's
contested flag and controlling faction satisfy the StatusConsistent invariant
with respect to the final influence values. -/
theorem updateZoneInfluence_consistent (factions : List Faction) :
    ∀ (fuel : ℕ) (fid : String) (delta : ℤ) (st st2 : ZoneSt),
      updateZoneInfluence factions fuel fid delta st = some st2 →
      StatusConsistent st2.zone := by
  intro fuel
  induction fuel with
  | zero =>
    intro fid delta st st2 h
    exact absurd h (by simp [updateZoneInfluence])
  | succ m ih =>
    intro fid delta st st2 h
    simp only [updateZoneInfluence] at h
    split at h
    · injection h with h2
      subst h2
      exact status_consistent _
    · split at h
      · split at h
        · split at h
          · split at h
            · cases h
            · exact ih _ _ _ _ h
          · injection h with h2
            subst h2
            exact status_consistent _
        · injection h with h2
          subst h2
          exact status_consistent _
      · injection h with h2
        subst h2
        exact status_consistent _

/-- C6: evaluating the code at the failing input. With merchant-guild at 65
and guard-corps at 60 influence (gap 5 < 15, both factions in the default
registry), updateZoneInfluence recurses through checkZoneConflicts forever:
no fuel bound suffices, which in the JS source is an unbounded mutual
recursion (stack overflow), not the single-pass decay the claim describes. -/
theorem C6_conflict_recursion_diverges (fuel : ℕ) :
    updateZoneInfluence defaultFactions fuel "guard-corps" 0 zone6560 = none := by
  cases fuel with
  | zero => rfl
  | succ m =>
    have hgf1 : getFaction defaultFactions "merchant-guild" =
        some { id := "merchant-guild", influence := 70, aggression := 20 } := rfl
    have hgf2 : getFaction defaultFactions "guard-corps" =
        some { id := "guard-corps", influence := 60, aggression := 30 } := rfl
    have hd20 : |(65 : ℤ) - 60| < 20 := by decide
    have hd15 : |(65 : ℤ) - 60| < 15 := by decide
    have hval : (0 : ℤ) ⊔ 100 ⊓ (60 + 0) = 60 := by decide
    have hlt : ¬((60 : ℤ) > 65) := by decide
    simp only [zone6560, updateZoneInfluence, lookupA, setA, upsertBy, sortDesc, insDesc,
      updateZoneControlStatus, recordConflict, List.foldr, Option.getD,
      String.reduceEq, reduceIte, decide_True, decide_False, Bool.not_true,
      Bool.not_false, if_true, if_false, hval, hlt, hd20, hd15, hgf1, hgf2,
      not_true, eq_self_iff_true, Bool.true_eq_false]
    rw [conflict_decay_diverges m 65 60 true _ _ "merchant-guild" (by decide) (by decide)
      (by decide) (by decide) (Or.inl ⟨rfl, by decide, by decide⟩)]

/-- A zone with no influence recorded. -/
def zEmpty : ZoneSt :=
  { zone := { influence := [], contested := false, controllingFactionId := none },
    conflicts := [] }

/-- The state after pushing merchant-guild to 65 in an empty zone. -/
def zMG65 : ZoneSt :=
  { zone := { influence := [("merchant-guild", 65)], contested := false,
              controllingFactionId := some "merchant-guild" },
    conflicts := [] }

/-- C5: after any terminating updateZoneInfluence call, the zone is contested
iff at least two factions have influence recorded and the top two (sorted
descending) are fewer than 20 points apart, and controllingFactionId is the
top faction iff its influence is at least 60 and the zone is not contested,
else null; in particular pushing merchant-guild to 65 and guard-corps to 50
yields contested = true and controllingFactionId = null. -/
theorem C5_zone_control :
    (∀ (factions : List Faction) (fuel : ℕ) (fid : String) (delta : ℤ)
       (st st2 : ZoneSt),
      updateZoneInfluence factions fuel fid delta st = some st2 →
      StatusConsistent st2.zone) ∧
    ((updateZoneInfluence defaultFactions 5 "merchant-guild" 65 zEmpty).bind
        (updateZoneInfluence defaultFactions 5 "guard-corps" 50)).map
        (fun s => (s.zone.contested, s.zone.controllingFactionId)) =
      some (true, none) :=
  ⟨updateZoneInfluence_consistent, by decide⟩

/-- Witness for C5: the first concrete call terminates and its result
satisfies the invariant. -/
theorem C5_zone_control_witness :
    updateZoneInfluence defaultFactions 5 "merchant-guild" 65 zEmpty = some zMG65 ∧
    StatusConsistent zMG65.zone :=
  ⟨by decide,
   C5_zone_control.1 defaultFactions 5 "merchant-guild" 65 zEmpty zMG65 (by decide)⟩

/-! ## C1 — rejected requests and state mutation -/

/-- The default policy with PvP disabled. -/
def cityNoPvp : CityPolicy :=
  { dPolicy with pvp := { onFlag := false, dropRule := "partial", penalty := "bounty" } }

/-- A guard NPC standing on the central square. -/
def guardNpc : Npc :=
  { id := "g1", name := "守卫", role := "guard", location := some "square" }

/-- C1 counterexample: the claim includes policy denial among the rejections
that must leave the player byte-identical, but the part_003 attack handler's
PvP policy denial (attacking a guard with PvP off) damages the attacker by
30: health drops from 100 to 70 and the state is not the original. -/
theorem C1_counterexample :
    (attackAlt (some cityNoPvp) [guardNpc] roomSquare (some "g1") 15 victim500).state.health
      = 70 ∧
    victim500.health = 100 ∧
    ¬(attackAlt (some cityNoPvp) [guardNpc] roomSquare (some "g1") 15 victim500).state
      = victim500 := by
  refine ⟨rfl, rfl, fun hEq => ?_⟩
  have hh := congrArg PState.health hEq
  rw [(rfl : (attackAlt (some cityNoPvp) [guardNpc] roomSquare (some "g1") 15
    victim500).state.health = 70)] at hh
  exact absurd hh (by decide)

/-- C1 (amended): every validation rejection — a blocked job (cooldown, heat
band, wrong location, illegal-heat ceiling), an invalid or over-balance
withdraw amount in either handler variant, and a missing or absent attack
target — returns a human-readable reason with the player state exactly
unchanged; the one exception is the PvP policy denial when attacking a guard,
which applies the fixed 30-damage penalty to the attacker (clamped at 0) and
changes nothing else. -/
theorem C1_rejection_no_mutation :
    (∀ (rooms : List Room) (p : PState) (jobId : String) (now : ℤ)
       (reason : String) (st : PState),
      runJob rooms p jobId now = JobResult.blocked reason st → st = p) ∧
    (∀ (city : Option CityPolicy) (amount : ℚ) (p : PState),
      (withdrawAlt city amount p).success = false → (withdrawAlt city amount p).state = p) ∧
    (∀ (cityRate : Option ℚ) (amount : ℚ) (p : PState),
      (withdrawActions cityRate amount p).success = false →
      (withdrawActions cityRate amount p).state = p) ∧
    (∀ (city : Option CityPolicy) (npcs : List Npc) (room : Room) (damage : ℤ)
       (p : PState),
      (attackAlt city npcs room none damage p).state = p) ∧
    (∀ (city : Option CityPolicy) (npcs : List Npc) (room : Room) (t : String)
       (damage : ℤ) (p : PState),
      npcs.find? (fun n => n.id = t) = none →
      (attackAlt city npcs room (some t) damage p).state = p) ∧
    (∀ (city : Option CityPolicy) (npcs : List Npc) (room : Room) (t : String)
       (damage : ℤ) (p : PState) (n : Npc),
      npcs.find? (fun n2 => n2.id = t) = some n → n.location ≠ some room.id →
      (attackAlt city npcs room (some t) damage p).state = p) ∧
    (∀ (c : CityPolicy) (npcs : List Npc) (room : Room) (t : String)
       (damage : ℤ) (p : PState) (n : Npc),
      npcs.find? (fun n2 => n2.id = t) = some n → n.location = some room.id →
      c.pvp.onFlag = false → n.role = "guard" →
      (attackAlt (some c) npcs room (some t) damage p).state =
        { p with health := max 0 (p.health - 30) }) := by
  refine ⟨?_, ?_, ?_, ?_, ?_, ?_, ?_⟩
  · intro rooms p jobId now reason st h
    unfold runJob at h
    rcases h1 : rooms.find? (fun r => r.id = p.location) with _ | room
    · simp only [h1] at h
      exact JobResult.noConfusion h
    · simp only [h1] at h
      rcases h2 : JOBS.find? (fun j => j.id = jobId) with _ | jd
      · simp only [h2] at h
        exact JobResult.noConfusion h
      · simp only [h2] at h
        rcases h3 : canRunJob jd p room now with _ | reason0
        · simp only [h3] at h
          exact JobResult.noConfusion h
        · simp only [h3, JobResult.blocked.injEq] at h
          exact h.2.symm
  · intro city amount p h
    simp only [withdrawAlt] at h ⊢
    split_ifs at h ⊢ <;> rfl
  · intro cityRate amount p h
    simp only [withdrawActions] at h ⊢
    split_ifs at h ⊢ <;> rfl
  · intro city npcs room damage p
    rfl
  · intro city npcs room t damage p hfind
    simp only [attackAlt, hfind]
  · intro city npcs room t damage p n hfind hloc
    simp only [attackAlt, hfind]
    rw [if_pos hloc]
  · intro c npcs room t damage p n hfind hloc hpvp hrole
    simp only [attackAlt, hfind]
    rw [if_neg (by simp [hloc])]
    rw [if_pos ⟨hpvp, hrole⟩]

/-- Witness for C1 (amended): a concrete blocked job run leaves the player
unchanged. -/
theorem C1_rejection_no_mutation_witness :
    runJob [roomSquare] victim500 "pickpocket" 0 =
      JobResult.blocked "冷却中" victim500 ∧
    victim500 = victim500 := by
  constructor
  · rfl
  · exact C1_rejection_no_mutation.1 [roomSquare] victim500 "pickpocket" 0 "冷却中"
      victim500 rfl ▸ rfl

/-! ## C2 — player invariants under operation sequences -/

/-- The operations of the claim: action handlers (withdraw in both variants,
attack), job runs, heat decay, and economic trades (buy/sell), each carrying
its external inputs (world data, clock, random damage roll, quantities). -/
inductive GOp where
  | job (rooms : List Room) (jobId : String) (now : ℤ)
  | withdrawA (cityRate : Option ℚ) (amount : ℚ)
  | withdrawB (city : Option CityPolicy) (amount : ℚ)
  | attackB (city : Option CityPolicy) (npcs : List Npc) (room : Room)
      (target : Option String) (damage : ℤ)
  | heatDecay (amount : ℤ)
  | buy (itemId traderId : String) (qty : ℚ)
  | sell (itemId traderId : String) (qty : ℚ)

/-- Run one operation against the economy state and the player. -/
def applyOp (op : GOp) (s : EconSt × PState) : EconSt × PState :=
  match op with
  | .job rooms jobId now =>
    (s.1, match runJob rooms s.2 jobId now with
      | .threw _ => s.2
      | .blocked _ st => st
      | .ran st _ => st)
  | .withdrawA cityRate amount => (s.1, (withdrawActions cityRate amount s.2).state)
  | .withdrawB city amount => (s.1, (withdrawAlt city amount s.2).state)
  | .attackB city npcs room target damage =>
    (s.1, (attackAlt city npcs room target damage s.2).state)
  | .heatDecay amount => (s.1, decayHeatPlayer amount s.2)
  | .buy itemId traderId qty =>
    let r := buyItem s.1 itemId traderId qty s.2
    (r.1, r.2.1)
  | .sell itemId traderId qty =>
    let r := sellItem s.1 itemId traderId qty s.2
    (r.1, r.2.1)

/-- Run a whole sequence of operations. -/
def applyOps (ops : List GOp) (s : EconSt × PState) : EconSt × PState :=
  ops.foldl (fun s op => applyOp op s) s

/-- Well-formedness of an operation's external inputs: attack damage rolls
come from Math.floor(Math.random()*20)+10 (so 10..29), and a sale's quantity
is nonnegative. Every other operation is unconstrained. -/
def wfOp : GOp → Prop
  | .attackB _ _ _ _ damage => 10 ≤ damage ∧ damage ≤ 29
  | .sell _ _ qty => 0 ≤ qty
  | _ => True

/-- Economy well-formedness: trader buy multipliers and trader item prices
are nonnegative (registerTrader creates multipliers in 0.7..1.3 and prices
as rounded products of positive numbers). -/
def EconWF (econ : EconSt) : Prop :=
  ∀ tr ∈ econ.traders, 0 ≤ tr.buyMultiplier ∧ ∀ it ∈ tr.items, 0 ≤ it.currentPrice

/-- The claim's player invariant: credits nonnegative and health, hunger and
heat within [0, 100]. -/
def Inv (p : PState) : Prop :=
  0 ≤ p.credits ∧ 0 ≤ p.health ∧ p.health ≤ 100 ∧ 0 ≤ p.hunger ∧ p.hunger ≤ 100 ∧
  0 ≤ p.heat ∧ p.heat ≤ 100

theorem clampZ_mem (v lo hi : ℤ) (h : lo ≤ hi) : lo ≤ clampZ v lo hi ∧ clampZ v lo hi ≤ hi := by
  unfold clampZ
  omega

theorem runJob_inv (rooms : List Room) (p : PState) (jobId : String) (now : ℤ)
    (hp : Inv p) :
    Inv (match runJob rooms p jobId now with
      | .threw _ => p
      | .blocked _ st => st
      | .ran st _ => st) := by
  rcases h1 : rooms.find? (fun r => r.id = p.location) with _ | room
  · simp only [runJob, h1]
    exact hp
  · rcases h2 : JOBS.find? (fun j => j.id = jobId) with _ | jd
    · simp only [runJob, h1, h2]
      exact hp
    · rcases h3 : canRunJob jd p room now with _ | reason
      · simp only [runJob, h1, h2, h3]
        unfold Inv
        refine ⟨le_sup_left, ?_, ?_, ?_, ?_, ?_, ?_⟩ <;>
          (dsimp only; simp only [clampZ, getHeat]; omega)
      · simp only [runJob, h1, h2, h3]
        exact hp

theorem withdrawActions_inv (cityRate : Option ℚ) (amount : ℚ) (p : PState)
    (hp : Inv p) : Inv (withdrawActions cityRate amount p).state := by
  simp only [withdrawActions]
  split_ifs with h1
  · exact hp
  · push_neg at h1
    unfold Inv at hp ⊢
    refine ⟨by linarith [h1.2], hp.2⟩

theorem withdrawAlt_inv (city : Option CityPolicy) (amount : ℚ) (p : PState)
    (hp : Inv p) : Inv (withdrawAlt city amount p).state := by
  simp only [withdrawAlt]
  split_ifs with h1 h2
  · exact hp
  · exact hp
  · unfold Inv at hp ⊢
    exact ⟨le_max_left 0 _, hp.2⟩

theorem attackAlt_inv (city : Option CityPolicy) (npcs : List Npc) (room : Room)
    (target : Option String) (damage : ℤ) (hd : 10 ≤ damage ∧ damage ≤ 29)
    (p : PState) (hp : Inv p) : Inv (attackAlt city npcs room target damage p).state := by
  unfold Inv at hp
  obtain ⟨c1, b1, b2, b3, b4, b5, b6⟩ := hp
  rcases target with _ | t
  · simp only [attackAlt]
    exact ⟨c1, b1, b2, b3, b4, b5, b6⟩
  · rcases hf : npcs.find? (fun n => n.id = t) with _ | n
    · simp only [attackAlt, hf]
      exact ⟨c1, b1, b2, b3, b4, b5, b6⟩
    · rcases city with _ | c
      · simp only [attackAlt, hf]
        split_ifs with h1
        · exact ⟨c1, b1, b2, b3, b4, b5, b6⟩
        · exact ⟨c1, le_sup_left, by dsimp only; omega, b3, b4, b5, b6⟩
      · simp only [attackAlt, hf]
        split_ifs with h1 h2
        · exact ⟨c1, b1, b2, b3, b4, b5, b6⟩
        · exact ⟨c1, le_sup_left, by dsimp only; omega, b3, b4, b5, b6⟩
        · exact ⟨c1, le_sup_left, by dsimp only; omega, b3, b4, b5, b6⟩

theorem decayHeatPlayer_inv (amount : ℤ) (p : PState) (hp : Inv p) :
    Inv (decayHeatPlayer amount p) := by
  unfold Inv at hp ⊢
  obtain ⟨c1, b1, b2, b3, b4, b5, b6⟩ := hp
  unfold decayHeatPlayer getHeat clampZ
  refine ⟨c1, b1, b2, b3, b4, ?_, ?_⟩ <;> (dsimp only; omega)

/-- recordTransaction only nudges global demand: traders are untouched. -/
theorem recordTransaction_traders (econ : EconSt) (itemId : String) (q : ℚ) (b : Bool) :
    (recordTransaction econ itemId q b).traders = econ.traders := by
  unfold recordTransaction
  split
  · rfl
  · split <;> rfl

/-- buyItem never drives credits negative and preserves economy
well-formedness: prices and multipliers are untouched. -/
theorem buyItem_inv (econ : EconSt) (itemId traderId : String) (qty : ℚ) (p : PState)
    (hecon : EconWF econ) (hp : Inv p) :
    Inv (buyItem econ itemId traderId qty p).2.1 ∧
    EconWF (buyItem econ itemId traderId qty p).1 := by
  rcases hfind : econ.traders.find? (fun tr => tr.traderId = traderId) with _ | trader
  · constructor <;> simp [buyItem, hfind] <;> [exact hp; exact hecon]
  · rcases hitem : trader.items.find? (fun it => it.id = itemId) with _ | item
    · constructor <;> simp [buyItem, hfind, hitem] <;> [exact hp; exact hecon]
    · by_cases h3 : item.supply < qty
      · constructor <;> simp [buyItem, hfind, hitem, h3] <;> [exact hp; exact hecon]
      · by_cases h4 : p.credits < item.currentPrice * qty
        · constructor <;> simp [buyItem, hfind, hitem, h3, h4] <;> [exact hp; exact hecon]
        · constructor
          · simp only [buyItem, hfind, hitem, if_neg h3, if_neg h4]
            unfold Inv at hp ⊢
            obtain ⟨c1, rest⟩ := hp
            exact ⟨by dsimp only; linarith [not_lt.mp h4], rest⟩
          · simp only [buyItem, hfind, hitem, if_neg h3, if_neg h4]
            unfold EconWF
            rw [recordTransaction_traders]
            intro tr2 htr2
            dsimp only at htr2
            simp only [updTrader, List.mem_map] at htr2
            obtain ⟨tr, htr, rfl⟩ := htr2
            by_cases he : tr.traderId = traderId
            · simp only [if_pos he]
              refine ⟨(hecon tr htr).1, ?_⟩
              intro it2 hit2
              simp only [updItem, List.mem_map] at hit2
              obtain ⟨it, hit, rfl⟩ := hit2
              by_cases hi : it.id = itemId
              · simp only [if_pos hi]
                exact (hecon tr htr).2 it hit
              · simp only [if_neg hi]
                exact (hecon tr htr).2 it hit
            · simp only [if_neg he]
              exact hecon tr htr

/-- sellItem adds a nonnegative revenue (prices and multipliers nonnegative,
quantity nonnegative) and leaves prices and multipliers untouched. -/
theorem sellItem_inv (econ : EconSt) (itemId traderId : String) (qty : ℚ) (p : PState)
    (hq : 0 ≤ qty) (hecon : EconWF econ) (hp : Inv p) :
    Inv (sellItem econ itemId traderId qty p).2.1 ∧
    EconWF (sellItem econ itemId traderId qty p).1 := by
  rcases hfind : econ.traders.find? (fun tr => tr.traderId = traderId) with _ | trader
  · constructor <;> simp only [sellItem, hfind] <;> [exact hp; exact hecon]
  · rcases hitem : trader.items.find? (fun it => it.id = itemId) with _ | item
    · constructor <;> simp only [sellItem, hfind, hitem] <;> [exact hp; exact hecon]
    · have htrm : trader ∈ econ.traders := List.mem_of_find?_eq_some hfind
      have hitm : item ∈ trader.items := List.mem_of_find?_eq_some hitem
      have hrev : (0 : ℚ) ≤
          ((jsRound (item.currentPrice * trader.buyMultiplier * qty) : ℤ) : ℚ) := by
        have hprice := (hecon trader htrm).2 item hitm
        have hmult := (hecon trader htrm).1
        have hprod : (0 : ℚ) ≤ item.currentPrice * trader.buyMultiplier * qty :=
          mul_nonneg (mul_nonneg hprice hmult) hq
        have hfl : (0 : ℤ) ≤ jsRound (item.currentPrice * trader.buyMultiplier * qty) := by
          unfold jsRound
          exact Int.floor_nonneg.mpr (by linarith)
        exact_mod_cast hfl
      constructor
      · simp only [sellItem, hfind, hitem]
        unfold Inv at hp ⊢
        obtain ⟨c1, rest⟩ := hp
        exact ⟨by dsimp only; linarith, rest⟩
      · simp only [sellItem, hfind, hitem]
        unfold EconWF
        rw [recordTransaction_traders]
        intro tr2 htr2
        dsimp only at htr2
        simp only [updTrader, List.mem_map] at htr2
        obtain ⟨tr, htr, rfl⟩ := htr2
        by_cases he : tr.traderId = traderId
        · simp only [if_pos he]
          refine ⟨(hecon tr htr).1, ?_⟩
          intro it2 hit2
          simp only [updItem, List.mem_map] at hit2
          obtain ⟨it, hit, rfl⟩ := hit2
          by_cases hi : it.id = itemId
          · simp only [if_pos hi]
            exact (hecon tr htr).2 it hit
          · simp only [if_neg hi]
            exact (hecon tr htr).2 it hit
        · simp only [if_neg he]
          exact hecon tr htr

/-- One operation preserves the player invariant and economy well-formedness. -/
theorem applyOp_inv (op : GOp) (s : EconSt × PState) (hwf : wfOp op)
    (h : Inv s.2 ∧ EconWF s.1) : Inv (applyOp op s).2 ∧ EconWF (applyOp op s).1 := by
  obtain ⟨hp, hecon⟩ := h
  cases op with
  | job rooms jobId now => exact ⟨runJob_inv rooms s.2 jobId now hp, hecon⟩
  | withdrawA cityRate amount => exact ⟨withdrawActions_inv cityRate amount s.2 hp, hecon⟩
  | withdrawB city amount => exact ⟨withdrawAlt_inv city amount s.2 hp, hecon⟩
  | attackB city npcs room target damage =>
    exact ⟨attackAlt_inv city npcs room target damage hwf s.2 hp, hecon⟩
  | heatDecay amount => exact ⟨decayHeatPlayer_inv amount s.2 hp, hecon⟩
  | buy itemId traderId qty =>
    exact ⟨(buyItem_inv s.1 itemId traderId qty s.2 hecon hp).1,
           (buyItem_inv s.1 itemId traderId qty s.2 hecon hp).2⟩
  | sell itemId traderId qty =>
    exact ⟨(sellItem_inv s.1 itemId traderId qty s.2 hwf hecon hp).1,
           (sellItem_inv s.1 itemId traderId qty s.2 hwf hecon hp).2⟩

/-- Auxiliary induction for C2. -/
theorem applyOps_inv (ops : List GOp) :
    ∀ (s : EconSt × PState), (∀ op ∈ ops, wfOp op) → Inv s.2 → EconWF s.1 →
      Inv (applyOps ops s).2 ∧ EconWF (applyOps ops s).1 := by
  induction ops with
  | nil => exact fun s _ hp he => ⟨hp, he⟩
  | cons op rest ih =>
    intro s hwf hp he
    have h1 := applyOp_inv op s (hwf op (by simp)) ⟨hp, he⟩
    have h2 := ih (applyOp op s) (fun op2 hop2 => hwf op2 (by simp [hop2])) h1.1 h1.2
    exact h2

/-- **C2.** For every player and every sequence of operations (job runs,
both withdraw handlers, NPC attacks, heat decay, market buys and sells),
the player's credits remain nonnegative and health, hunger and heat each
remain within [0,100] after every operation — i.e. after every prefix of
the sequence — given that attack damage lies in the code's own
Math.random range [10,29], sale quantities are nonnegative, and trader
prices and multipliers start nonnegative. -/
theorem C2_player_invariants (ops : List GOp) (econ : EconSt) (p : PState)
    (hwf : ∀ op ∈ ops, wfOp op) (hecon : EconWF econ) (hp : Inv p) :
    ∀ pre suf, ops = pre ++ suf →
      0 ≤ (applyOps pre (econ, p)).2.credits ∧
      0 ≤ (applyOps pre (econ, p)).2.health ∧ (applyOps pre (econ, p)).2.health ≤ 100 ∧
      0 ≤ (applyOps pre (econ, p)).2.hunger ∧ (applyOps pre (econ, p)).2.hunger ≤ 100 ∧
      0 ≤ (applyOps pre (econ, p)).2.heat ∧ (applyOps pre (econ, p)).2.heat ≤ 100 := by
  intro pre suf hsplit
  have hwf2 : ∀ op ∈ pre, wfOp op := fun op hop =>
    hwf op (by rw [hsplit]; exact List.mem_append_left _ hop)
  exact (applyOps_inv pre (econ, p) hwf2 hp hecon).1

/-- Witness for C2: a concrete four-operation run from a concrete state. -/
theorem C2_player_invariants_witness :
    (∀ op ∈ [GOp.heatDecay 4, GOp.withdrawB (some dPolicy) 100,
        GOp.sell "iron-ore" "t1" 1], wfOp op) ∧
    EconWF econEmpty ∧ Inv victim500 ∧
    (0 ≤ (applyOps [GOp.heatDecay 4, GOp.withdrawB (some dPolicy) 100]
        (econEmpty, victim500)).2.credits ∧
      0 ≤ (applyOps [GOp.heatDecay 4, GOp.withdrawB (some dPolicy) 100]
        (econEmpty, victim500)).2.health ∧
      (applyOps [GOp.heatDecay 4, GOp.withdrawB (some dPolicy) 100]
        (econEmpty, victim500)).2.health ≤ 100 ∧
      0 ≤ (applyOps [GOp.heatDecay 4, GOp.withdrawB (some dPolicy) 100]
        (econEmpty, victim500)).2.hunger ∧
      (applyOps [GOp.heatDecay 4, GOp.withdrawB (some dPolicy) 100]
        (econEmpty, victim500)).2.hunger ≤ 100 ∧
      0 ≤ (applyOps [GOp.heatDecay 4, GOp.withdrawB (some dPolicy) 100]
        (econEmpty, victim500)).2.heat ∧
      (applyOps [GOp.heatDecay 4, GOp.withdrawB (some dPolicy) 100]
        (econEmpty, victim500)).2.heat ≤ 100) := by
  have hwf : ∀ op ∈ [GOp.heatDecay 4, GOp.withdrawB (some dPolicy) 100,
      GOp.sell "iron-ore" "t1" 1], wfOp op := by
    intro op hop
    simp only [List.mem_cons, List.not_mem_nil, or_false] at hop
    rcases hop with rfl | rfl | rfl
    · trivial
    · trivial
    · exact (by norm_num : (0 : ℚ) ≤ 1)
  have hecon : EconWF econEmpty := by
    intro tr htr
    simp [econEmpty] at htr
  have hp : Inv victim500 := by
    unfold Inv victim500
    norm_num
  exact ⟨hwf, hecon, hp,
    C2_player_invariants
      [GOp.heatDecay 4, GOp.withdrawB (some dPolicy) 100, GOp.sell "iron-ore" "t1" 1]
      econEmpty victim500 hwf hecon hp
      [GOp.heatDecay 4, GOp.withdrawB (some dPolicy) 100]
      [GOp.sell "iron-ore" "t1" 1] rfl⟩
end Axiom
